import Mathlib

/-!
Verification of the object-storage synchronization engine of the
openworkers CLI (`src/s3.rs`): AWS SigV4 signing, the `ObjectStorage`
capability (signed and presigned clients), and the `upload_assets`
orchestrator.  Byte strings are modelled as `List Nat` with every byte
below 256; machine words are `Nat` reduced modulo `2 ^ 32` explicitly.
-/

namespace OW

/-! ### SHA-256 (model of the `sha2` crate's `Sha256::digest`) -/

/-- Truncate to a 32-bit word. -/
def w32 (x : Nat) : Nat := x % 4294967296

/-- Right rotation of a 32-bit word. -/
def rotr32 (n x : Nat) : Nat := ((x >>> n) ||| (x <<< (32 - n))) % 4294967296

def bigSigma0 (x : Nat) : Nat := (rotr32 2 x) ^^^ (rotr32 13 x) ^^^ (rotr32 22 x)

def bigSigma1 (x : Nat) : Nat := (rotr32 6 x) ^^^ (rotr32 11 x) ^^^ (rotr32 25 x)

def smallSigma0 (x : Nat) : Nat := (rotr32 7 x) ^^^ (rotr32 18 x) ^^^ (x >>> 3)

def smallSigma1 (x : Nat) : Nat := (rotr32 17 x) ^^^ (rotr32 19 x) ^^^ (x >>> 10)

def chFn (e f g : Nat) : Nat := (e &&& f) ^^^ ((e ^^^ 4294967295) &&& g)

def majFn (a b c : Nat) : Nat := (a &&& b) ^^^ (a &&& c) ^^^ (b &&& c)

/-- The 64 SHA-256 round constants of FIPS 180-4, written in decimal. -/
def shaK : List Nat :=
  [1116352408, 1899447441, 3049323471, 3921009573, 961987163, 1508970993,
   2453635748, 2870763221, 3624381080, 310598401, 607225278, 1426881987,
   1925078388, 2162078206, 2614888103, 3248222580, 3835390401, 4022224774,
   264347078, 604807628, 770255983, 1249150122, 1555081692, 1996064986,
   2554220882, 2821834349, 2952996808, 3210313671, 3336571891, 3584528711,
   113926993, 338241895, 666307205, 773529912, 1294757372, 1396182291,
   1695183700, 1986661051, 2177026350, 2456956037, 2730485921, 2820302411,
   3259730800, 3345764771, 3516065817, 3600352804, 4094571909, 275423344,
   430227734, 506948616, 659060556, 883997877, 958139571, 1322822218,
   1537002063, 1747873779, 1955562222, 2024104815, 2227730452, 2361852424,
   2428436474, 2756734187, 3204031479, 3329325298]

/-- The SHA-256 initial hash value of FIPS 180-4, written in decimal. -/
def shaH0 : List Nat :=
  [1779033703, 3144134277, 1013904242, 2773480762,
   1359893119, 2600822924, 528734635, 1541459225]

/-- Big-endian bytes to 32-bit words. -/
def bytesToWords : List Nat → List Nat
  | b0 :: b1 :: b2 :: b3 :: rest =>
      ((b0 <<< 24) ||| (b1 <<< 16) ||| (b2 <<< 8) ||| b3) :: bytesToWords rest
  | _ => []

/-- Extend a 16-word block to the 64-word message schedule. -/
def extendSchedule (ws : List Nat) : List Nat :=
  (List.range 48).foldl
    (fun ws _ =>
      let t := ws.length
      let s0 := smallSigma0 (ws.getD (t - 15) 0)
      let s1 := smallSigma1 (ws.getD (t - 2) 0)
      ws ++ [w32 (ws.getD (t - 16) 0 + s0 + ws.getD (t - 7) 0 + s1)])
    ws

/-- One SHA-256 compression round over a 64-byte block. -/
def compress (h : List Nat) (block : List Nat) : List Nat :=
  let ws := extendSchedule (bytesToWords block)
  let init := (h.getD 0 0, h.getD 1 0, h.getD 2 0, h.getD 3 0,
               h.getD 4 0, h.getD 5 0, h.getD 6 0, h.getD 7 0)
  let st := (ws.zip shaK).foldl
    (fun st wk =>
      let (a, b, c, d, e, f, g, hh) := st
      let t1 := w32 (hh + bigSigma1 e + chFn e f g + wk.2 + wk.1)
      let t2 := w32 (bigSigma0 a + majFn a b c)
      (w32 (t1 + t2), a, b, c, w32 (d + t1), e, f, g))
    init
  match st with
  | (a, b, c, d, e, f, g, hh) =>
      [w32 (h.getD 0 0 + a), w32 (h.getD 1 0 + b), w32 (h.getD 2 0 + c), w32 (h.getD 3 0 + d),
       w32 (h.getD 4 0 + e), w32 (h.getD 5 0 + f), w32 (h.getD 6 0 + g), w32 (h.getD 7 0 + hh)]

/-- Big-endian 8-byte encoding of the bit length. -/
def lenBytes (n : Nat) : List Nat :=
  [(n >>> 56) % 256, (n >>> 48) % 256, (n >>> 40) % 256, (n >>> 32) % 256,
   (n >>> 24) % 256, (n >>> 16) % 256, (n >>> 8) % 256, n % 256]

/-- SHA-256 padding: 0x80, zeros to 56 mod 64, then the 64-bit bit length. -/
def padMessage (msg : List Nat) : List Nat :=
  let l := msg.length
  let zeros := (119 - l % 64) % 64
  msg ++ [128] ++ List.replicate zeros 0 ++ lenBytes (8 * l)

/-- Split a byte list into 64-byte chunks. -/
def chunks64 (l : List Nat) : List (List Nat) :=
  if h : l = [] then []
  else l.take 64 :: chunks64 (l.drop 64)
termination_by l.length
decreasing_by
  simp only [List.length_drop]
  exact Nat.sub_lt (List.length_pos.mpr h) (by decide)

/-- Big-endian byte decomposition of a 32-bit word. -/
def wordToBytesBE (w : Nat) : List Nat :=
  [(w >>> 24) % 256, (w >>> 16) % 256, (w >>> 8) % 256, w % 256]

/-- SHA-256 of a byte list. -/
def sha256Bytes (msg : List Nat) : List Nat :=
  ((chunks64 (padMessage msg)).foldl compress shaH0).flatMap wordToBytesBE

/-! ### HMAC-SHA256 (model of the `hmac` crate's `Hmac<Sha256>`) -/

/-- HMAC-SHA256 with a key of arbitrary length (block size 64). -/
def hmacSha256 (key msg : List Nat) : List Nat :=
  let k0 := if 64 < key.length then sha256Bytes key else key
  let kp := k0 ++ List.replicate (64 - k0.length) 0
  let ip := kp.map (fun b => b ^^^ 54)
  let op := kp.map (fun b => b ^^^ 92)
  sha256Bytes (op ++ sha256Bytes (ip ++ msg))

/-! ### Hex and Base64 codecs (models of the `hex` and `base64` crates) -/

/-- Lowercase hex digit for a nibble. -/
def hexDigitChar (n : Nat) : Char :=
  Char.ofNat (if n < 10 then 48 + n else 87 + n)

/-- Lowercase hex characters of a byte list, high nibble first. -/
def hexChars : List Nat → List Char
  | [] => []
  | b :: rest => hexDigitChar (b / 16) :: hexDigitChar (b % 16) :: hexChars rest

/-- `hex::encode`: lowercase hex string of a byte list. -/
def hexEncode (bs : List Nat) : String := String.mk (hexChars bs)

/-- Value of one hex digit, accepting both cases (as `hex::decode` does). -/
def hexDigitVal (c : Char) : Option Nat :=
  if 48 ≤ c.toNat ∧ c.toNat ≤ 57 then some (c.toNat - 48)
  else if 97 ≤ c.toNat ∧ c.toNat ≤ 102 then some (c.toNat - 87)
  else if 65 ≤ c.toNat ∧ c.toNat ≤ 70 then some (c.toNat - 55)
  else none

/-- Decode hex characters two at a time; fails on odd length or a bad digit. -/
def hexDecodeChars : List Char → Option (List Nat)
  | [] => some []
  | [_] => none
  | c1 :: c2 :: rest => do
      let hi ← hexDigitVal c1
      let lo ← hexDigitVal c2
      let bs ← hexDecodeChars rest
      pure ((hi * 16 + lo) :: bs)

/-- `hex::decode`: bytes of a hex string, or failure. -/
def hexDecode (s : String) : Option (List Nat) := hexDecodeChars s.data

/-- Base64 alphabet character for a 6-bit value (standard alphabet). -/
def b64Char (n : Nat) : Char :=
  Char.ofNat
    (if n < 26 then 65 + n
     else if n < 52 then 97 + (n - 26)
     else if n < 62 then 48 + (n - 52)
     else if n = 62 then 43
     else 47)

/-- Standard Base64 characters of a byte list, with `=` padding. -/
def base64Chars : List Nat → List Char
  | b0 :: b1 :: b2 :: rest =>
      let x := b0 * 65536 + b1 * 256 + b2
      b64Char (x / 262144 % 64) :: b64Char (x / 4096 % 64) ::
        b64Char (x / 64 % 64) :: b64Char (x % 64) :: base64Chars rest
  | [b0, b1] =>
      let x := b0 * 1024 + b1 * 4
      [b64Char (x / 4096 % 64), b64Char (x / 64 % 64), b64Char (x % 64), '=']
  | [b0] =>
      let x := b0 * 16
      [b64Char (x / 64 % 64), b64Char (x % 64), '=', '=']
  | [] => []

/-- `base64::engine::general_purpose::STANDARD.encode`. -/
def base64Encode (bs : List Nat) : String := String.mk (base64Chars bs)

/-! ### UTF-8 (model of Rust's `str::as_bytes`) -/

/-- UTF-8 encoding of one scalar value. -/
def utf8Bytes (c : Char) : List Nat :=
  let n := c.toNat
  if n < 128 then [n]
  else if n < 2048 then [192 ||| (n >>> 6), 128 ||| (n &&& 63)]
  else if n < 65536 then
    [224 ||| (n >>> 12), 128 ||| ((n >>> 6) &&& 63), 128 ||| (n &&& 63)]
  else
    [240 ||| (n >>> 18), 128 ||| ((n >>> 12) &&& 63),
     128 ||| ((n >>> 6) &&& 63), 128 ||| (n &&& 63)]

/-- UTF-8 bytes of a string (Rust's `as_bytes`). -/
def strBytes (s : String) : List Nat := s.data.flatMap utf8Bytes

/-! ### The `ObjectStorage` capability and the sync orchestrator (`src/s3.rs`) -/

/-- A storage capability: `head` returns `(checksum_sha256_b64, has_etag)` when the
object exists, `put` returns true on success.  Mirrors the `ObjectStorage` trait. -/
structure StorageModel where
  head : String → Except String (Option (Option String × Bool))
  put : String → List Nat → String → Except String Bool

/-- Per-asset outcome of the orchestrator. -/
inductive Outcome where
  | uploaded
  | skipped
  | failed
deriving DecidableEq, Repr

/-- How the orchestrator classifies the result of `storage.put`:
`Ok(true)` is uploaded, `Ok(false)` and `Err` are failed (logged, not counted). -/
def outcomeOfPut : Except String Bool → Outcome
  | .ok true => .uploaded
  | .ok false => .failed
  | .error _ => .failed

/-- `hex_to_base64` from `src/s3.rs`: `hex::decode(..).unwrap_or_default()` then
standard Base64. -/
def hex_to_base64 (hex_str : String) : String :=
  base64Encode ((hexDecode hex_str).getD [])

/-- The decision body of `upload_assets` for one asset (the closure passed to
`for_each_concurrent`): HEAD check, checksum comparison, then maybe PUT. -/
def processAsset (st : StorageModel) (path : String) (content : List Nat)
    (content_type hash_b64 : String) : Outcome :=
  match st.head path with
  | .ok (some (remote_checksum, _has_etag)) =>
      match remote_checksum with
      | some remote_hash =>
          if remote_hash = hash_b64 then .skipped
          else outcomeOfPut (st.put path content content_type)
      | none => outcomeOfPut (st.put path content content_type)
  | _ => outcomeOfPut (st.put path content content_type)

/-- An asset as handed to `upload_assets`: `(key, content, content_type, sha256_hex)`. -/
structure Asset where
  path : String
  content : List Nat
  contentType : String
  hashHex : String

/-- `upload_assets`: per-asset probe-then-maybe-upload with the two counters
(uploaded, skipped); failures increment neither.  The counters are atomic and
order-independent in the source, so the concurrent fold is modelled as a fold
over the asset list. -/
def upload_assets (st : StorageModel) (assets : List Asset) : Nat × Nat :=
  assets.foldl
    (fun acc a =>
      match processAsset st a.path a.content a.contentType (hex_to_base64 a.hashHex) with
      | .uploaded => (acc.1 + 1, acc.2)
      | .skipped => (acc.1, acc.2 + 1)
      | .failed => acc)
    (0, 0)

/-- The outcome of each asset of a sync call, in input order. -/
def assetOutcomes (st : StorageModel) (assets : List Asset) : List Outcome :=
  assets.map (fun a => processAsset st a.path a.content a.contentType (hex_to_base64 a.hashHex))

/-! ### S3Client — signed requests -/

/-- `S3Config` from `src/s3.rs` (`prefix` is a Lean keyword, renamed `keyPrefix`). -/
structure S3Config where
  bucket : String
  endpoint : String
  access_key_id : String
  secret_access_key : String
  region : String
  keyPrefix : Option String

/-- `S3Client::full_key`: prepend the configured prefix. -/
def S3Client.full_key (cfg : S3Config) (key : String) : String :=
  match cfg.keyPrefix with
  | some p => p ++ "/" ++ key
  | none => key

/-- `S3Client::url`: `endpoint/bucket/fullKey`. -/
def S3Client.url (cfg : S3Config) (key : String) : String :=
  cfg.endpoint ++ "/" ++ cfg.bucket ++ "/" ++ S3Client.full_key cfg key

/-- `hmac_sha256` from `src/s3.rs`: `Hmac<Sha256>` accepts keys of any length,
so `new_from_slice` never fails and the result is always `Ok`. -/
def hmac_sha256 (key data : List Nat) : Except String (List Nat) :=
  .ok (hmacSha256 key data)

/-- `S3Client::sign`: the AWS v4 four-step key derivation and final HMAC. -/
def S3Client.sign (cfg : S3Config) (date_stamp string_to_sign : String) :
    Except String String := do
  let k_date ← hmac_sha256 (strBytes ("AWS4" ++ cfg.secret_access_key)) (strBytes date_stamp)
  let k_region ← hmac_sha256 k_date (strBytes cfg.region)
  let k_service ← hmac_sha256 k_region (strBytes "s3")
  let k_signing ← hmac_sha256 k_service (strBytes "aws4_request")
  let signature ← hmac_sha256 k_signing (strBytes string_to_sign)
  pure (hexEncode signature)

/-- The strings built by `S3Client::head`/`S3Client::put` before sending. -/
structure SignedRequest where
  payload_hash : String
  canonical_headers : String
  signed_headers : String
  canonical_request : String
  credential_scope : String
  string_to_sign : String
  authorization : String

/-- The request-building part of `S3Client::head` (everything before `send`),
given the host and path parsed from the URL and the two clock strings. -/
def S3Client.headRequest (cfg : S3Config) (host path date_stamp amz_date : String) :
    Except String SignedRequest := do
  let payload_hash := hexEncode (sha256Bytes [])
  let canonical_headers :=
    "host:" ++ host ++ "\nx-amz-content-sha256:" ++ payload_hash ++
      "\nx-amz-date:" ++ amz_date ++ "\n"
  let signed_headers := "host;x-amz-content-sha256;x-amz-date"
  let canonical_request :=
    "HEAD\n" ++ path ++ "\n\n" ++ canonical_headers ++ "\n" ++ signed_headers ++
      "\n" ++ payload_hash
  let credential_scope := date_stamp ++ "/" ++ cfg.region ++ "/s3/aws4_request"
  let canonical_request_hash := hexEncode (sha256Bytes (strBytes canonical_request))
  let string_to_sign :=
    "AWS4-HMAC-SHA256" ++ "\n" ++ amz_date ++ "\n" ++ credential_scope ++ "\n" ++
      canonical_request_hash
  let signature ← S3Client.sign cfg date_stamp string_to_sign
  pure
    { payload_hash := payload_hash
      canonical_headers := canonical_headers
      signed_headers := signed_headers
      canonical_request := canonical_request
      credential_scope := credential_scope
      string_to_sign := string_to_sign
      authorization :=
        "AWS4-HMAC-SHA256" ++ " Credential=" ++ cfg.access_key_id ++ "/" ++
          credential_scope ++ ", SignedHeaders=" ++ signed_headers ++
          ", Signature=" ++ signature }

/-- The request-building part of `S3Client::put` (everything before `send`). -/
def S3Client.putRequest (cfg : S3Config) (host path date_stamp amz_date : String)
    (body : List Nat) (content_type : String) : Except String SignedRequest := do
  let payload_hash := hexEncode (sha256Bytes body)
  let checksum_b64 := base64Encode (sha256Bytes body)
  let canonical_headers :=
    "content-type:" ++ content_type ++ "\nhost:" ++ host ++
      "\nx-amz-checksum-sha256:" ++ checksum_b64 ++
      "\nx-amz-content-sha256:" ++ payload_hash ++
      "\nx-amz-date:" ++ amz_date ++ "\n"
  let signed_headers := "content-type;host;x-amz-checksum-sha256;x-amz-content-sha256;x-amz-date"
  let canonical_request :=
    "PUT\n" ++ path ++ "\n\n" ++ canonical_headers ++ "\n" ++ signed_headers ++
      "\n" ++ payload_hash
  let credential_scope := date_stamp ++ "/" ++ cfg.region ++ "/s3/aws4_request"
  let canonical_request_hash := hexEncode (sha256Bytes (strBytes canonical_request))
  let string_to_sign :=
    "AWS4-HMAC-SHA256" ++ "\n" ++ amz_date ++ "\n" ++ credential_scope ++ "\n" ++
      canonical_request_hash
  let signature ← S3Client.sign cfg date_stamp string_to_sign
  pure
    { payload_hash := payload_hash
      canonical_headers := canonical_headers
      signed_headers := signed_headers
      canonical_request := canonical_request
      credential_scope := credential_scope
      string_to_sign := string_to_sign
      authorization :=
        "AWS4-HMAC-SHA256" ++ " Credential=" ++ cfg.access_key_id ++ "/" ++
          credential_scope ++ ", SignedHeaders=" ++ signed_headers ++
          ", Signature=" ++ signature }

/-! ### Response handling (shared by both clients) -/

/-- The parts of an HTTP response the clients look at. -/
structure HttpResponse where
  status : Nat
  checksum : Option String
  hasEtag : Bool
deriving DecidableEq, Repr

/-- `reqwest::StatusCode::is_success`: 200 ≤ status ≤ 299. -/
def isSuccess (status : Nat) : Bool := 200 ≤ status && status ≤ 299

/-- The response-processing tail of both `head` implementations: a transport
error propagates, a non-success status is `Ok(None)`, a success status yields
the `x-amz-checksum-sha256` header (if any) and the etag presence flag. -/
def headFromResponse (resp : Except String HttpResponse) :
    Except String (Option (Option String × Bool)) :=
  match resp with
  | .error e => .error e
  | .ok r =>
      if isSuccess r.status then .ok (some (r.checksum, r.hasEtag))
      else .ok none

/-- The response-processing tail of both `put` implementations. -/
def putFromResponse (resp : Except String HttpResponse) : Except String Bool :=
  match resp with
  | .error e => .error e
  | .ok r => .ok (isSuccess r.status)

/-- `S3Client::head` end to end: parse the URL (the `Url::parse`/`host_str`
steps, an oracle returning host and path or an error), build and sign the
request, send it, process the response. -/
def S3Client.head (cfg : S3Config) (key : String)
    (parse : String → Except String (String × String)) (date_stamp amz_date : String)
    (send : SignedRequest → Except String HttpResponse) :
    Except String (Option (Option String × Bool)) :=
  match parse (S3Client.url cfg key) with
  | .error e => .error e
  | .ok (host, path) =>
      match S3Client.headRequest cfg host path date_stamp amz_date with
      | .error e => .error e
      | .ok req => headFromResponse (send req)

/-- `S3Client::put` end to end. -/
def S3Client.put (cfg : S3Config) (key : String)
    (parse : String → Except String (String × String)) (date_stamp amz_date : String)
    (body : List Nat) (content_type : String)
    (send : SignedRequest → Except String HttpResponse) : Except String Bool :=
  match parse (S3Client.url cfg key) with
  | .error e => .error e
  | .ok (host, path) =>
      match S3Client.putRequest cfg host path date_stamp amz_date body content_type with
      | .error e => .error e
      | .ok req => putFromResponse (send req)

/-! ### PresignedClient — raw HTTP to presigned URLs -/

/-- What `PresignedClient::put` hands to the transport: the presigned URL and
the headers/body it sets. -/
structure PutSend where
  url : String
  contentType : String
  contentLength : Nat
  checksumB64 : String
  body : List Nat

/-- `PresignedClient::head`: look up the head URL, then plain HEAD.  The
transport is an oracle from URL to response-or-transport-error. -/
def PresignedClient.head (urls : List (String × String × String))
    (send : String → Except String HttpResponse) (key : String) :
    Except String (Option (Option String × Bool)) :=
  match List.lookup key urls with
  | none => .error ("No URL for key \x27" ++ key ++ "\x27")
  | some (head_url, _) => headFromResponse (send head_url)

/-- `PresignedClient::put`: look up the put URL, attach the
`x-amz-checksum-sha256` header (Base64 SHA-256 of the body), then plain PUT. -/
def PresignedClient.put (urls : List (String × String × String))
    (send : PutSend → Except String HttpResponse) (key : String)
    (body : List Nat) (content_type : String) : Except String Bool :=
  match List.lookup key urls with
  | none => .error ("No URL for key \x27" ++ key ++ "\x27")
  | some (_, put_url) =>
      let checksum_b64 := base64Encode (sha256Bytes body)
      putFromResponse
        (send { url := put_url, contentType := content_type,
                contentLength := body.length, checksumB64 := checksum_b64,
                body := body })

/-- The `ObjectStorage` capability of a `PresignedClient` over given transports. -/
def presignedStorage (urls : List (String × String × String))
    (sendHead : String → Except String HttpResponse)
    (sendPut : PutSend → Except String HttpResponse) : StorageModel where
  head := PresignedClient.head urls sendHead
  put := PresignedClient.put urls sendPut

/-! ### A checksum-storing remote, for the idempotence property

Both `S3Client::put` and `PresignedClient::put` send
`x-amz-checksum-sha256 = base64(SHA-256(body))`, and `head` reads that header
back.  The model below is an S3 remote reduced to exactly that contract. -/

/-- Remote state: key to stored Base64 checksum. -/
def Store := String → Option String

/-- The capability presented by the checksum-storing remote in a given state:
`head` returns the stored checksum (with an etag), `put` always succeeds. -/
def modelStorage (store : Store) : StorageModel where
  head := fun k => .ok ((store k).map (fun c => (some c, true)))
  put := fun _ _ _ => .ok true

/-- Effect of a successful PUT of `a` on the remote: the checksum header sent
by both clients, `base64(SHA-256(content))`, is stored under the key. -/
def storePut (store : Store) (a : Asset) : Store :=
  fun k => if k = a.path then some (base64Encode (sha256Bytes a.content)) else store k

/-- `upload_assets` run against the checksum-storing remote, threading its
state: per asset, the decision logic of `processAsset`, then the state effect
of the PUT when one happened. -/
def runSync : List Asset → Store → Nat × Nat × Store
  | [], store => (0, 0, store)
  | a :: rest, store =>
      let o := processAsset (modelStorage store) a.path a.content a.contentType
        (hex_to_base64 a.hashHex)
      let store' := if o = .skipped then store else storePut store a
      let r := runSync rest store'
      ((if o = .uploaded then 1 else 0) + r.1,
       (if o = .skipped then 1 else 0) + r.2.1, r.2.2)

/-! ### Helper lemmas -/

theorem hexDigitVal_hexDigitChar : ∀ n < 16, hexDigitVal (hexDigitChar n) = some n := by
  decide

theorem hexDecodeChars_hexChars (bs : List Nat) (h : ∀ b ∈ bs, b < 256) :
    hexDecodeChars (hexChars bs) = some bs := by
  induction bs with
  | nil => rfl
  | cons b rest ih =>
    have hb : b < 256 := h b (List.mem_cons_self b rest)
    have h16a : b / 16 < 16 := by omega
    have h16b : b % 16 < 16 := Nat.mod_lt _ (by decide)
    have hrest := ih (fun x hx => h x (List.mem_cons_of_mem _ hx))
    show hexDecodeChars (hexDigitChar (b / 16) :: hexDigitChar (b % 16) :: hexChars rest) =
      some (b :: rest)
    rw [hexDecodeChars, hexDigitVal_hexDigitChar _ h16a, hexDigitVal_hexDigitChar _ h16b, hrest]
    have : b / 16 * 16 + b % 16 = b := by omega
    simp [this]

theorem hexDecode_hexEncode (bs : List Nat) (h : ∀ b ∈ bs, b < 256) :
    hexDecode (hexEncode bs) = some bs :=
  hexDecodeChars_hexChars bs h

theorem sha256Bytes_lt (m : List Nat) : ∀ b ∈ sha256Bytes m, b < 256 := by
  intro b hb
  unfold sha256Bytes at hb
  simp only [List.mem_flatMap, wordToBytesBE, List.mem_cons, List.not_mem_nil, or_false] at hb
  obtain ⟨w, -, hw⟩ := hb
  rcases hw with h | h | h | h <;> subst h <;> exact Nat.mod_lt _ (by decide)

theorem hex_to_base64_of_decode (s : String) (bs : List Nat) (h : hexDecode s = some bs) :
    hex_to_base64 s = base64Encode bs := by
  unfold hex_to_base64
  rw [h]
  rfl

theorem hex_to_base64_sha (c : List Nat) :
    hex_to_base64 (hexEncode (sha256Bytes c)) = base64Encode (sha256Bytes c) :=
  hex_to_base64_of_decode _ _ (hexDecode_hexEncode _ (sha256Bytes_lt c))

theorem outcomeOfPut_ne_skipped (r : Except String Bool) : outcomeOfPut r ≠ .skipped := by
  rcases r with e | b
  · simp [outcomeOfPut]
  · cases b <;> simp [outcomeOfPut]

theorem count_outcomes (os : List Outcome) :
    os.count .uploaded + os.count .skipped + os.count .failed = os.length := by
  induction os with
  | nil => rfl
  | cons o rest ih => cases o <;> simp [List.count_cons] <;> omega

theorem foldl_outcome_counts (st : StorageModel) (assets : List Asset) (u s : Nat) :
    assets.foldl
      (fun acc a =>
        match processAsset st a.path a.content a.contentType (hex_to_base64 a.hashHex) with
        | .uploaded => (acc.1 + 1, acc.2)
        | .skipped => (acc.1, acc.2 + 1)
        | .failed => acc)
      (u, s) =
      (u + (assetOutcomes st assets).count .uploaded,
       s + (assetOutcomes st assets).count .skipped) := by
  induction assets generalizing u s with
  | nil => simp [assetOutcomes]
  | cons a rest ih =>
    simp only [List.foldl_cons, assetOutcomes, List.map_cons, List.count_cons]
    cases h : processAsset st a.path a.content a.contentType (hex_to_base64 a.hashHex) <;>
      simp [h, ih, assetOutcomes] <;> omega

/-! ### Claims -/

/-- C1: for every secret access key, region, date stamp and string-to-sign,
`S3Client::sign` returns `Ok` of the lowercase hex encoding of
`HMAC-SHA256(signingKey, stringToSign)`, where the signing key is derived by
the four-step chain dateKey, regionKey, serviceKey ("s3"), signingKey
("aws4_request"). -/
theorem sign_derives_sigv4_signature (cfg : S3Config) (date_stamp string_to_sign : String) :
    S3Client.sign cfg date_stamp string_to_sign =
      .ok (hexEncode (hmacSha256
        (hmacSha256
          (hmacSha256
            (hmacSha256
              (hmacSha256 (strBytes ("AWS4" ++ cfg.secret_access_key)) (strBytes date_stamp))
              (strBytes cfg.region))
            (strBytes "s3"))
          (strBytes "aws4_request"))
        (strBytes string_to_sign))) := rfl

/-- C5: every asset receives exactly one of the three outcomes; `upload_assets`
returns exactly the (uploaded, skipped) counts of the outcome list, a failed
asset increments neither counter, and uploaded + skipped + failed equals the
number of input assets. -/
theorem outcome_partition_counts (st : StorageModel) (assets : List Asset) :
    upload_assets st assets =
      ((assetOutcomes st assets).count .uploaded, (assetOutcomes st assets).count .skipped) ∧
    (assetOutcomes st assets).count .uploaded + (assetOutcomes st assets).count .skipped +
      (assetOutcomes st assets).count .failed = assets.length := by
  constructor
  · rw [upload_assets, foldl_outcome_counts]
    simp
  · rw [count_outcomes]
    simp [assetOutcomes]

theorem processAsset_head_error (st : StorageModel) (path : String)
    (content : List Nat) (content_type hash_b64 e : String)
    (hhead : st.head path = .error e) :
    processAsset st path content content_type hash_b64 =
      outcomeOfPut (st.put path content content_type) := by
  unfold processAsset
  rw [hhead]

/-- C8: when the probe (`head`) returns `Err`, the orchestrator proceeds to
`put` for that asset: the outcome is exactly the outcome of the upload, so a
probe failure alone never blocks an upload and never classifies the asset as
failed by itself. -/
theorem probe_error_falls_through_to_put (st : StorageModel) (path : String)
    (content : List Nat) (content_type hash_b64 e : String)
    (hhead : st.head path = .error e) :
    processAsset st path content content_type hash_b64 =
      outcomeOfPut (st.put path content content_type) :=
  processAsset_head_error st path content content_type hash_b64 e hhead

/-- Witness for C8 at a concrete storage whose probe always fails. -/
theorem probe_error_falls_through_to_put_witness :
    processAsset ⟨fun _ => .error "timeout", fun _ _ _ => .ok true⟩ "a.txt" [] "text/plain" "h" =
      outcomeOfPut ((⟨fun _ => .error "timeout", fun _ _ _ => .ok true⟩ : StorageModel).put
        "a.txt" [] "text/plain") :=
  probe_error_falls_through_to_put _ "a.txt" [] "text/plain" "h" "timeout" rfl

theorem processAsset_skip_iff (st : StorageModel) (path : String) (content : List Nat)
    (content_type hb : String) (p : String → List Nat → String → Except String Bool) :
    processAsset ⟨st.head, p⟩ path content content_type hb = .skipped ↔
      ∃ etag, st.head path = .ok (some (some hb, etag)) := by
  unfold processAsset
  rcases hh : st.head path with e | v
  · simp only [hh]
    constructor
    · intro h
      exact absurd h (outcomeOfPut_ne_skipped _)
    · rintro ⟨etag, h⟩
      exact absurd h (by simp)
  · rcases v with - | ⟨rc, etag⟩
    · simp only [hh]
      constructor
      · intro h
        exact absurd h (outcomeOfPut_ne_skipped _)
      · rintro ⟨etag, h⟩
        simp at h
    · rcases rc with - | rh
      · simp only [hh]
        constructor
        · intro h
          exact absurd h (outcomeOfPut_ne_skipped _)
        · rintro ⟨etag2, h⟩
          simp at h
      · simp only [hh]
        by_cases hr : rh = hb
        · subst hr
          simp
        · rw [if_neg hr]
          constructor
          · intro h
            exact absurd h (outcomeOfPut_ne_skipped _)
          · rintro ⟨etag2, h⟩
            simp at h
            exact absurd h.1 hr

theorem processAsset_no_match_put (st : StorageModel) (path : String) (content : List Nat)
    (content_type hb : String)
    (hno : ¬ ∃ etag, st.head path = .ok (some (some hb, etag))) :
    processAsset st path content content_type hb =
      outcomeOfPut (st.put path content content_type) := by
  unfold processAsset
  rcases hh : st.head path with e | v
  · rfl
  · rcases v with - | ⟨rc, etag⟩
    · rfl
    · rcases rc with - | rh
      · rfl
      · by_cases hr : rh = hb
        · exact absurd ⟨etag, by rw [hh, hr]⟩ hno
        · simp [hr]

/-- C3: an asset is classified skipped — independently of the `put` function,
which is never consulted in that case — if and only if the probe succeeds with
a present remote checksum equal to the standard Base64 encoding of the bytes
obtained by hex-decoding the asset's `contentHashHex`; in every other case the
outcome is decided by the `put` call. -/
theorem skip_iff_remote_checksum_matches (st : StorageModel) (path : String)
    (content : List Nat) (content_type hash_hex : String) (bs : List Nat)
    (hdec : hexDecode hash_hex = some bs) :
    (∀ p, processAsset ⟨st.head, p⟩ path content content_type (hex_to_base64 hash_hex) =
        .skipped ↔ ∃ etag, st.head path = .ok (some (some (base64Encode bs), etag))) ∧
    ((¬ ∃ etag, st.head path = .ok (some (some (base64Encode bs), etag))) →
      processAsset st path content content_type (hex_to_base64 hash_hex) =
        outcomeOfPut (st.put path content content_type)) := by
  rw [hex_to_base64_of_decode _ _ hdec]
  exact ⟨fun p => processAsset_skip_iff st path content content_type _ p,
         fun hno => processAsset_no_match_put st path content content_type _ hno⟩

/-- A concrete storage for the C3 witness: the remote checksum equals the
Base64 of the hex-decoded hash `"00"`. -/
def c3Store : StorageModel :=
  ⟨fun _ => .ok (some (some (base64Encode [0]), true)), fun _ _ _ => .ok true⟩

/-- Witness for C3 at the storage `c3Store` and the hash string `"00"`. -/
theorem skip_iff_remote_checksum_matches_witness :
    (∀ p, processAsset ⟨c3Store.head, p⟩ "a.txt" [] "text/plain" (hex_to_base64 "00") =
        .skipped ↔
        ∃ etag, c3Store.head "a.txt" = .ok (some (some (base64Encode [0]), etag))) ∧
    ((¬ ∃ etag, c3Store.head "a.txt" = .ok (some (some (base64Encode [0]), etag))) →
      processAsset c3Store "a.txt" [] "text/plain" (hex_to_base64 "00") =
        outcomeOfPut (c3Store.put "a.txt" [] "text/plain")) :=
  skip_iff_remote_checksum_matches c3Store "a.txt" [] "text/plain" "00" [0] (by decide)

/-- C10: `hex_to_base64` is total, and on a string that is not valid hex it
returns the Base64 encoding of the empty byte sequence, which is the empty
string; such an asset is still processed by the orchestrator and is classified
skipped exactly when the remote checksum header value is the empty string. -/
theorem hex_to_base64_total_malformed (s : String) (st : StorageModel) (path : String)
    (content : List Nat) (content_type : String) (hbad : hexDecode s = none) :
    hex_to_base64 s = "" ∧
    (∀ p, processAsset ⟨st.head, p⟩ path content content_type (hex_to_base64 s) =
        .skipped ↔ ∃ etag, st.head path = .ok (some (some "", etag))) := by
  have h0 : hex_to_base64 s = "" := by
    unfold hex_to_base64
    rw [hbad]
    rfl
  refine ⟨h0, ?_⟩
  rw [h0]
  exact fun p => processAsset_skip_iff st path content content_type "" p

/-- A concrete storage for the C10 witness: the remote checksum is the empty
string. -/
def c10Store : StorageModel :=
  ⟨fun _ => .ok (some (some "", true)), fun _ _ _ => .ok true⟩

/-- Witness for C10 at the malformed hex string `"zz"`. -/
theorem hex_to_base64_total_malformed_witness :
    hex_to_base64 "zz" = "" ∧
    (∀ p, processAsset ⟨c10Store.head, p⟩ "a.txt" [] "text/plain" (hex_to_base64 "zz") =
        .skipped ↔ ∃ etag, c10Store.head "a.txt" = .ok (some (some "", etag))) :=
  hex_to_base64_total_malformed "zz" c10Store "a.txt" [] "text/plain" (by decide)

/-- C4: for both implementations, the probe maps every non-success status
(404 included) to `Ok(None)` and returns the checksum/etag pair exactly on a
success status; the upload returns `Ok(true)` iff the status is a success and
`Ok(false)` on any other status; when an HTTP status was obtained the result
is never `Err`. -/
theorem status_mapping_of_clients :
    (∀ r : HttpResponse, headFromResponse (.ok r) =
        .ok (if isSuccess r.status then some (r.checksum, r.hasEtag) else none)) ∧
    (∀ e, headFromResponse (.error e) = .error e) ∧
    (∀ r : HttpResponse, putFromResponse (.ok r) = .ok (isSuccess r.status)) ∧
    (∀ e, putFromResponse (.error e) = .error e) ∧
    isSuccess 404 = false ∧
    (∀ urls send key u pu (r : HttpResponse),
        List.lookup key urls = some (u, pu) → send u = .ok r →
        PresignedClient.head urls send key =
          .ok (if isSuccess r.status then some (r.checksum, r.hasEtag) else none) ∧
        ∀ e, PresignedClient.head urls send key ≠ .error e) ∧
    (∀ urls send key (body : List Nat) content_type u pu (r : HttpResponse),
        List.lookup key urls = some (u, pu) →
        send { url := pu, contentType := content_type, contentLength := body.length,
               checksumB64 := base64Encode (sha256Bytes body), body := body } = .ok r →
        PresignedClient.put urls send key body content_type = .ok (isSuccess r.status)) ∧
    (∀ cfg key parse date_stamp amz_date send host path (r : HttpResponse),
        parse (S3Client.url cfg key) = .ok (host, path) →
        (∀ req, send req = .ok r) →
        S3Client.head cfg key parse date_stamp amz_date send =
          .ok (if isSuccess r.status then some (r.checksum, r.hasEtag) else none)) ∧
    (∀ cfg key parse date_stamp amz_date (body : List Nat) content_type send host path
        (r : HttpResponse),
        parse (S3Client.url cfg key) = .ok (host, path) →
        (∀ req, send req = .ok r) →
        S3Client.put cfg key parse date_stamp amz_date body content_type send =
          .ok (isSuccess r.status)) := by
  refine ⟨fun r => ?_, fun e => rfl, fun r => rfl, fun e => rfl, rfl, ?_, ?_, ?_, ?_⟩
  · by_cases h : isSuccess r.status <;> simp [headFromResponse, h]
  · intro urls send key u pu r hlk hsend
    have hh : PresignedClient.head urls send key = headFromResponse (send u) := by
      unfold PresignedClient.head
      rw [hlk]
    rw [hh, hsend]
    constructor
    · by_cases h : isSuccess r.status <;> simp [headFromResponse, h]
    · intro e
      by_cases h : isSuccess r.status <;> simp [headFromResponse, h]
  · intro urls send key body content_type u pu r hlk hsend
    unfold PresignedClient.put
    rw [hlk]
    show putFromResponse (send _) = _
    rw [hsend]
    rfl
  · intro cfg key parse date_stamp amz_date send host path r hparse hsend
    unfold S3Client.head
    rw [hparse]
    show headFromResponse (send _) = _
    rw [hsend]
    by_cases h : isSuccess r.status <;> simp [headFromResponse, h]
  · intro cfg key parse date_stamp amz_date body content_type send host path r hparse hsend
    unfold S3Client.put
    rw [hparse]
    show putFromResponse (send _) = _
    rw [hsend]
    rfl

/-- Witness for C4: a presigned client with one mapped key, probed at status
404 and uploaded at status 200. -/
theorem status_mapping_of_clients_witness :
    PresignedClient.head [("k", "hu", "pu")] (fun _ => .ok ⟨404, none, false⟩) "k" =
      .ok none ∧
    PresignedClient.put [("k", "hu", "pu")] (fun _ => .ok ⟨200, none, false⟩) "k" []
      "text/plain" = .ok true ∧
    S3Client.head ⟨"bucket", "https://s3.example.com", "AK", "SK", "us-east-1", none⟩ "k"
      (fun _ => .ok ("s3.example.com", "/bucket/k")) "20250101" "20250101T000000Z"
      (fun _ => .ok ⟨404, none, false⟩) = .ok none ∧
    S3Client.put ⟨"bucket", "https://s3.example.com", "AK", "SK", "us-east-1", none⟩ "k"
      (fun _ => .ok ("s3.example.com", "/bucket/k")) "20250101" "20250101T000000Z" []
      "text/plain" (fun _ => .ok ⟨200, none, false⟩) = .ok true :=
  ⟨(status_mapping_of_clients.2.2.2.2.2.1 [("k", "hu", "pu")]
      (fun _ => .ok ⟨404, none, false⟩) "k" "hu" "pu" ⟨404, none, false⟩ rfl rfl).1,
   status_mapping_of_clients.2.2.2.2.2.2.1 [("k", "hu", "pu")]
      (fun _ => .ok ⟨200, none, false⟩) "k" [] "text/plain" "hu" "pu" ⟨200, none, false⟩
      rfl rfl,
   status_mapping_of_clients.2.2.2.2.2.2.2.1
      ⟨"bucket", "https://s3.example.com", "AK", "SK", "us-east-1", none⟩ "k"
      (fun _ => .ok ("s3.example.com", "/bucket/k")) "20250101" "20250101T000000Z"
      (fun _ => .ok ⟨404, none, false⟩) "s3.example.com" "/bucket/k" ⟨404, none, false⟩
      rfl (fun _ => rfl),
   status_mapping_of_clients.2.2.2.2.2.2.2.2
      ⟨"bucket", "https://s3.example.com", "AK", "SK", "us-east-1", none⟩ "k"
      (fun _ => .ok ("s3.example.com", "/bucket/k")) "20250101" "20250101T000000Z" []
      "text/plain" (fun _ => .ok ⟨200, none, false⟩) "s3.example.com" "/bucket/k"
      ⟨200, none, false⟩ rfl (fun _ => rfl)⟩

/-- C6 (amended): a key absent from the Presigned Client's URL map makes
`head` and `put` return `Err` for that key without consulting the transport,
and in the orchestrator this surfaces as a per-asset failure — it is not
raised before the batch and does not abort the other assets. -/
theorem missing_url_is_per_asset_failure (urls : List (String × String × String))
    (key : String) (content : List Nat) (content_type : String)
    (h : List.lookup key urls = none) :
    (∀ sendHead, PresignedClient.head urls sendHead key =
        .error ("No URL for key \x27" ++ key ++ "\x27")) ∧
    (∀ sendPut, PresignedClient.put urls sendPut key content content_type =
        .error ("No URL for key \x27" ++ key ++ "\x27")) ∧
    (∀ sendHead sendPut hash_b64,
        processAsset (presignedStorage urls sendHead sendPut) key content content_type
          hash_b64 = .failed) := by
  have hh : ∀ sendHead, PresignedClient.head urls sendHead key =
      .error ("No URL for key \x27" ++ key ++ "\x27") := by
    intro sendHead
    unfold PresignedClient.head
    rw [h]
  have hp : ∀ sendPut, PresignedClient.put urls sendPut key content content_type =
      .error ("No URL for key \x27" ++ key ++ "\x27") := by
    intro sendPut
    unfold PresignedClient.put
    rw [h]
  refine ⟨hh, hp, fun sendHead sendPut hash_b64 => ?_⟩
  rw [processAsset_head_error _ _ _ _ hash_b64 _ (hh sendHead)]
  show outcomeOfPut (PresignedClient.put urls sendPut key content content_type) = .failed
  rw [hp sendPut]
  rfl

/-- Witness for C6 (amended) at the empty URL map. -/
theorem missing_url_is_per_asset_failure_witness :
    (∀ sendHead, PresignedClient.head [] sendHead "a.txt" =
        .error ("No URL for key \x27a.txt\x27")) ∧
    (∀ sendPut, PresignedClient.put [] sendPut "a.txt" [] "text/plain" =
        .error ("No URL for key \x27a.txt\x27")) ∧
    (∀ sendHead sendPut hash_b64,
        processAsset (presignedStorage [] sendHead sendPut) "a.txt" [] "text/plain"
          hash_b64 = .failed) :=
  missing_url_is_per_asset_failure [] "a.txt" [] "text/plain" rfl

/-- C6 counterexample: one asset's key is missing from the URL map, yet the
sync call is not aborted — the other asset still goes through the network and
is uploaded, and the run returns (1 uploaded, 0 skipped).  This refutes the
claim that a missing key is fatal to the whole sync call and raised before
any network activity for any asset. -/
theorem missing_url_not_fatal_counterexample :
    List.lookup "a.txt" [("b.txt", "hb", "pb")] = none ∧
    upload_assets
      (presignedStorage [("b.txt", "hb", "pb")]
        (fun _ => .ok ⟨404, none, false⟩)
        (fun _ => .ok ⟨200, none, false⟩))
      [⟨"a.txt", [], "text/plain", "00"⟩, ⟨"b.txt", [], "text/plain", "00"⟩] = (1, 0) :=
  ⟨rfl, rfl⟩

/-! ### Idempotence of sync against the checksum-storing remote -/

theorem processAsset_model (store : Store) (p : String) (c : List Nat) (ct hb : String) :
    processAsset (modelStorage store) p c ct hb =
      if store p = some hb then .skipped else .uploaded := by
  rcases hs : store p with - | cs
  · simp [processAsset, modelStorage, outcomeOfPut, hs]
  · by_cases hc : cs = hb
    · simp [processAsset, modelStorage, outcomeOfPut, hs, hc]
    · simp [processAsset, modelStorage, outcomeOfPut, hs, hc]

theorem runSync_cons (a : Asset) (rest : List Asset) (store : Store) :
    runSync (a :: rest) store =
      if store a.path = some (hex_to_base64 a.hashHex) then
        ((runSync rest store).1, 1 + (runSync rest store).2.1, (runSync rest store).2.2)
      else
        (1 + (runSync rest (storePut store a)).1,
         (runSync rest (storePut store a)).2.1,
         (runSync rest (storePut store a)).2.2) := by
  show (let o := processAsset (modelStorage store) a.path a.content a.contentType
          (hex_to_base64 a.hashHex)
        let store' := if o = .skipped then store else storePut store a
        let r := runSync rest store'
        ((if o = .uploaded then 1 else 0) + r.1,
         (if o = .skipped then 1 else 0) + r.2.1, r.2.2)) = _
  rw [processAsset_model]
  by_cases h : store a.path = some (hex_to_base64 a.hashHex)
  · simp [h]
  · simp [h]

theorem runSync_stable (assets : List Asset) (store : Store) (k : String)
    (hk : k ∉ assets.map Asset.path) :
    (runSync assets store).2.2 k = store k := by
  induction assets generalizing store with
  | nil => rfl
  | cons a rest ih =>
    simp only [List.map_cons, List.mem_cons, not_or] at hk
    rw [runSync_cons]
    by_cases h : store a.path = some (hex_to_base64 a.hashHex)
    · rw [if_pos h]
      exact ih store hk.2
    · rw [if_neg h]
      show (runSync rest (storePut store a)).2.2 k = store k
      rw [ih (storePut store a) hk.2]
      unfold storePut
      rw [if_neg hk.1]

theorem runSync_establishes (assets : List Asset) (store : Store)
    (hh : ∀ a ∈ assets, a.hashHex = hexEncode (sha256Bytes a.content))
    (hnd : (assets.map Asset.path).Nodup) :
    ∀ a ∈ assets,
      (runSync assets store).2.2 a.path = some (base64Encode (sha256Bytes a.content)) := by
  induction assets generalizing store with
  | nil => simp
  | cons b rest ih =>
    simp only [List.map_cons, List.nodup_cons] at hnd
    intro a ha
    rcases List.mem_cons.mp ha with rfl | ha'
    · rw [runSync_cons]
      by_cases h : store a.path = some (hex_to_base64 a.hashHex)
      · rw [if_pos h]
        show (runSync rest store).2.2 a.path = _
        rw [runSync_stable rest store a.path hnd.1, h,
          hh a (List.mem_cons_self a rest), hex_to_base64_sha]
      · rw [if_neg h]
        show (runSync rest (storePut store a)).2.2 a.path = _
        rw [runSync_stable rest _ a.path hnd.1]
        unfold storePut
        rw [if_pos rfl]
    · rw [runSync_cons]
      by_cases h : store b.path = some (hex_to_base64 b.hashHex)
      · rw [if_pos h]
        exact ih store (fun x hx => hh x (List.mem_cons_of_mem _ hx)) hnd.2 a ha'
      · rw [if_neg h]
        exact ih (storePut store b) (fun x hx => hh x (List.mem_cons_of_mem _ hx)) hnd.2 a ha'

theorem runSync_all_match (assets : List Asset) (store : Store)
    (hm : ∀ a ∈ assets, store a.path = some (hex_to_base64 a.hashHex)) :
    runSync assets store = (0, assets.length, store) := by
  induction assets with
  | nil => rfl
  | cons a rest ih =>
    rw [runSync_cons, if_pos (hm a (List.mem_cons_self a rest)),
      ih (fun x hx => hm x (List.mem_cons_of_mem _ hx))]
    simp [Nat.add_comm]

/-- C7: against the remote model in which `put` stores the Base64 SHA-256
checksum sent in the `x-amz-checksum-sha256` header and `head` returns it,
running the sync a second time on an unchanged asset list whose hashes are
the hex SHA-256 of each asset's content — after a first run in which every
asset succeeded — uploads nothing and skips all N assets. -/
theorem second_sync_skips_all (assets : List Asset) (store0 : Store)
    (hh : ∀ a ∈ assets, a.hashHex = hexEncode (sha256Bytes a.content))
    (hnd : (assets.map Asset.path).Nodup) :
    runSync assets (runSync assets store0).2.2 =
      (0, assets.length, (runSync assets store0).2.2) := by
  apply runSync_all_match
  intro a ha
  rw [runSync_establishes assets store0 hh hnd a ha, hh a ha, hex_to_base64_sha]

/-- Witness for C7: a single empty asset, synced twice from an empty remote. -/
theorem second_sync_skips_all_witness :
    runSync [⟨"a.txt", [], "text/plain", hexEncode (sha256Bytes [])⟩]
        (runSync [⟨"a.txt", [], "text/plain", hexEncode (sha256Bytes [])⟩]
          (fun _ => none)).2.2 =
      (0, 1,
        (runSync [⟨"a.txt", [], "text/plain", hexEncode (sha256Bytes [])⟩]
          (fun _ => none)).2.2) :=
  second_sync_skips_all [⟨"a.txt", [], "text/plain", hexEncode (sha256Bytes [])⟩]
    (fun _ => none)
    (by
      intro a ha
      simp only [List.mem_singleton] at ha
      subst ha
      rfl)
    (by simp)

/-! ### The request formats, as the spec words them

The three definitions below follow the spec's wording of the SigV4 request
formats (canonical request, string-to-sign, authorization header) and are
compared against the strings the source builds. -/

/-- Spec wording: each canonical header as `name:value` terminated by a
newline. -/
def headerLines : List (String × String) → String
  | [] => ""
  | h :: rest => h.1 ++ ":" ++ h.2 ++ "\n" ++ headerLines rest

/-- Spec wording: the semicolon-joined signed header names. -/
def headerNamesJoined : List (String × String) → String
  | [] => ""
  | [h] => h.1
  | h :: rest => h.1 ++ ";" ++ headerNamesJoined rest

/-- Spec wording: canonical request = method, path, empty query line, the
canonical headers, the signed header names and the payload hash, separated by
newlines. -/
def specCanonicalRequest (method path : String) (headers : List (String × String))
    (payloadHash : String) : String :=
  method ++ "\n" ++ path ++ "\n" ++ "\n" ++ headerLines headers ++ "\n" ++
    headerNamesJoined headers ++ "\n" ++ payloadHash

/-- Spec wording: string-to-sign = algorithm, timestamp, credential scope and
the hex SHA-256 of the canonical request, separated by newlines. -/
def specStringToSign (amzDate credentialScope canonicalRequest : String) : String :=
  "AWS4-HMAC-SHA256" ++ "\n" ++ amzDate ++ "\n" ++ credentialScope ++ "\n" ++
    hexEncode (sha256Bytes (strBytes canonicalRequest))

/-- Spec wording of the Authorization header value. -/
def specAuthorization (accessKeyId credentialScope signedHeaders signatureHex : String) :
    String :=
  "AWS4-HMAC-SHA256 Credential=" ++ accessKeyId ++ "/" ++ credentialScope ++
    ", SignedHeaders=" ++ signedHeaders ++ ", Signature=" ++ signatureHex

/-- C2: the HEAD and PUT requests built by the signed client have exactly the
canonical request, string-to-sign and Authorization header of the spec: the
header names are lowercase and lexicographically sorted, the query line is
empty, the payload hash is the hex SHA-256 of the payload (of the empty byte
string for HEAD), the credential scope is dateStamp/region/s3/aws4_request,
and the signature in the header is the one `sign` returns for the
string-to-sign. -/
theorem signed_request_formats (cfg : S3Config) (host path date_stamp amz_date : String)
    (body : List Nat) (content_type : String) :
    (∃ req, S3Client.headRequest cfg host path date_stamp amz_date = .ok req ∧
      req.canonical_request =
        specCanonicalRequest "HEAD" path
          [("host", host), ("x-amz-content-sha256", hexEncode (sha256Bytes [])),
           ("x-amz-date", amz_date)]
          (hexEncode (sha256Bytes [])) ∧
      req.signed_headers =
        headerNamesJoined
          [("host", host), ("x-amz-content-sha256", hexEncode (sha256Bytes [])),
           ("x-amz-date", amz_date)] ∧
      req.credential_scope = date_stamp ++ "/" ++ cfg.region ++ "/s3/aws4_request" ∧
      req.string_to_sign =
        specStringToSign amz_date req.credential_scope req.canonical_request ∧
      ∃ sig, S3Client.sign cfg date_stamp req.string_to_sign = .ok sig ∧
        req.authorization =
          specAuthorization cfg.access_key_id req.credential_scope req.signed_headers sig) ∧
    (∃ req, S3Client.putRequest cfg host path date_stamp amz_date body content_type =
        .ok req ∧
      req.canonical_request =
        specCanonicalRequest "PUT" path
          [("content-type", content_type), ("host", host),
           ("x-amz-checksum-sha256", base64Encode (sha256Bytes body)),
           ("x-amz-content-sha256", hexEncode (sha256Bytes body)),
           ("x-amz-date", amz_date)]
          (hexEncode (sha256Bytes body)) ∧
      req.signed_headers =
        headerNamesJoined
          [("content-type", content_type), ("host", host),
           ("x-amz-checksum-sha256", base64Encode (sha256Bytes body)),
           ("x-amz-content-sha256", hexEncode (sha256Bytes body)),
           ("x-amz-date", amz_date)] ∧
      req.credential_scope = date_stamp ++ "/" ++ cfg.region ++ "/s3/aws4_request" ∧
      req.string_to_sign =
        specStringToSign amz_date req.credential_scope req.canonical_request ∧
      ∃ sig, S3Client.sign cfg date_stamp req.string_to_sign = .ok sig ∧
        req.authorization =
          specAuthorization cfg.access_key_id req.credential_scope req.signed_headers sig) ∧
    List.Chain' (fun a b : String => a.data < b.data)
      ["host", "x-amz-content-sha256", "x-amz-date"] ∧
    List.Chain' (fun a b : String => a.data < b.data)
      ["content-type", "host", "x-amz-checksum-sha256", "x-amz-content-sha256",
       "x-amz-date"] ∧
    (∀ n ∈ (["content-type", "host", "x-amz-checksum-sha256", "x-amz-content-sha256",
        "x-amz-date"] : List String), n.data.map Char.toLower = n.data) := by
  refine ⟨⟨_, rfl, ?_, ?_, rfl, rfl, _, rfl, ?_⟩, ⟨_, rfl, ?_, ?_, rfl, rfl, _, rfl, ?_⟩,
    ?_, ?_, ?_⟩
  · apply String.ext
    simp [specCanonicalRequest, headerLines, headerNamesJoined, String.data_append,
      List.append_assoc]
  · apply String.ext
    simp [headerNamesJoined, String.data_append, List.append_assoc]
  · apply String.ext
    simp [specAuthorization, String.data_append, List.append_assoc]
  · apply String.ext
    simp [specCanonicalRequest, headerLines, headerNamesJoined, String.data_append,
      List.append_assoc]
  · apply String.ext
    simp [headerNamesJoined, String.data_append, List.append_assoc]
  · apply String.ext
    simp [specAuthorization, String.data_append, List.append_assoc]
  · simp only [List.chain'_cons, List.chain'_singleton, and_true]
    exact ⟨by decide, by decide⟩
  · simp only [List.chain'_cons, List.chain'_singleton, and_true]
    exact ⟨by decide, by decide, by decide, by decide⟩
  · decide

end OW
